import Mathlib

/-!
Verification of the AArch64 Top-Byte-Ignore (TBI) pointer-tagging utility
(`crates/core_arch/src/aarch64/tbi.rs`).

The source defines a trait `TBIPointer` with two methods, `with_top_byte`
and `top_byte`, and implements it for the four raw-pointer shapes
`*const T`, `*mut T`, `*const [T]`, `*mut [T]` through one shared macro
`tbi_ptr_impl!`.  The macro body works purely on the pointer's address
(a 64-bit `usize`), which we embed as a natural number; 8-bit values
(`u8`) are embedded as naturals reduced modulo `2^8` at the points where
the source performs a cast.
-/

namespace TBI

/-- The literal mask `0x00ffffffffffffff` from the source line
`let addr = self.addr() & 0x00ffffffffffffff;`. -/
def addrMask : Nat := 0x00ffffffffffffff

/-- Address-level body of `with_top_byte` from the macro `tbi_ptr_impl!`:
`let addr = self.addr() & 0x00ffffffffffffff; let p = addr | ((b as usize) << 56);`.
The argument `b` is a `u8` in the source; embedding `u8` as a natural
number, the cast `b as usize` is modelled by reduction modulo `2^8`
(a no-op on genuine `u8` values). -/
def withTopByteAddr (a b : Nat) : Nat :=
  (a &&& addrMask) ||| ((b % 2 ^ 8) <<< 56)

/-- Address-level body of `top_byte` from the macro `tbi_ptr_impl!`:
`(self.addr() >> 56) as u8`.  The trailing cast to `u8` is modelled by
reduction modulo `2^8`. -/
def topByteAddr (a : Nat) : Nat :=
  (a >>> 56) % 2 ^ 8

/-- A thin immutable raw pointer `*const T`, reduced to its address.
The pointee type only parameterizes the Rust type; the TBI operations
read and write nothing but the address, so it is omitted here. -/
structure ConstPtr where
  addr : Nat

/-- A thin mutable raw pointer `*mut T`, reduced to its address. -/
structure MutPtr where
  addr : Nat

/-- A fat immutable slice pointer `*const [T]`: an address plus the
length metadata.  Rust's `with_addr` on a fat pointer replaces only the
address component and keeps the metadata. -/
structure ConstSlicePtr where
  addr : Nat
  len : Nat

/-- A fat mutable slice pointer `*mut [T]`: an address plus length. -/
structure MutSlicePtr where
  addr : Nat
  len : Nat

/-- `<*const T as TBIPointer>::with_top_byte`, via `tbi_ptr_impl!`. -/
def ConstPtr.with_top_byte (p : ConstPtr) (b : Nat) : ConstPtr :=
  ⟨withTopByteAddr p.addr b⟩

/-- `<*const T as TBIPointer>::top_byte`, via `tbi_ptr_impl!`. -/
def ConstPtr.top_byte (p : ConstPtr) : Nat :=
  topByteAddr p.addr

/-- `<*mut T as TBIPointer>::with_top_byte`, via `tbi_ptr_impl!`. -/
def MutPtr.with_top_byte (p : MutPtr) (b : Nat) : MutPtr :=
  ⟨withTopByteAddr p.addr b⟩

/-- `<*mut T as TBIPointer>::top_byte`, via `tbi_ptr_impl!`. -/
def MutPtr.top_byte (p : MutPtr) : Nat :=
  topByteAddr p.addr

/-- `<*const [T] as TBIPointer>::with_top_byte`, via `tbi_ptr_impl!`:
`self.with_addr(p)` on a fat pointer keeps the length metadata. -/
def ConstSlicePtr.with_top_byte (p : ConstSlicePtr) (b : Nat) : ConstSlicePtr :=
  ⟨withTopByteAddr p.addr b, p.len⟩

/-- `<*const [T] as TBIPointer>::top_byte`, via `tbi_ptr_impl!`. -/
def ConstSlicePtr.top_byte (p : ConstSlicePtr) : Nat :=
  topByteAddr p.addr

/-- `<*mut [T] as TBIPointer>::with_top_byte`, via `tbi_ptr_impl!`. -/
def MutSlicePtr.with_top_byte (p : MutSlicePtr) (b : Nat) : MutSlicePtr :=
  ⟨withTopByteAddr p.addr b, p.len⟩

/-- `<*mut [T] as TBIPointer>::top_byte`, via `tbi_ptr_impl!`. -/
def MutSlicePtr.top_byte (p : MutSlicePtr) : Nat :=
  topByteAddr p.addr

/-- The mask constant is `2^56 - 1`, so masking is reduction mod `2^56`. -/
theorem and_addrMask (a : Nat) : a &&& addrMask = a % 2 ^ 56 := by
  have h : addrMask = 2 ^ 56 - 1 := by decide
  rw [h, Nat.and_pow_two_sub_one_eq_mod]

/-- Arithmetic characterization of the mask-and-or computation. -/
theorem withTopByteAddr_arith (a b : Nat) :
    withTopByteAddr a b = 72057594037927936 * (b % 256) + a % 72057594037927936 := by
  have h56 : (2 : Nat) ^ 56 = 72057594037927936 := by norm_num
  have h8 : (2 : Nat) ^ 8 = 256 := by norm_num
  unfold withTopByteAddr
  rw [and_addrMask, Nat.shiftLeft_eq, h56, h8, Nat.lor_comm,
    mul_comm (b % 256) 72057594037927936]
  rw [← h56, ← Nat.mul_add_lt_is_or (Nat.mod_lt a (by positivity)) (b % 256), h56]

/-- Arithmetic characterization of the shift-and-truncate computation. -/
theorem topByteAddr_arith (a : Nat) :
    topByteAddr a = a / 72057594037927936 % 256 := by
  have h56 : (2 : Nat) ^ 56 = 72057594037927936 := by norm_num
  have h8 : (2 : Nat) ^ 8 = 256 := by norm_num
  unfold topByteAddr
  rw [Nat.shiftRight_eq_div_pow, h56, h8]

/-- Reading the top byte of a freshly tagged address yields the tag. -/
theorem topByteAddr_withTopByteAddr (a b : Nat) (hb : b < 256) :
    topByteAddr (withTopByteAddr a b) = b := by
  rw [withTopByteAddr_arith, topByteAddr_arith]
  omega

/-- Tagging preserves the low 56 bits of the address. -/
theorem withTopByteAddr_payload (a b : Nat) :
    withTopByteAddr a b % 72057594037927936 = a % 72057594037927936 := by
  rw [withTopByteAddr_arith]
  omega

/-- The tagged address always fits in 64 bits. -/
theorem withTopByteAddr_lt (a b : Nat) :
    withTopByteAddr a b < 18446744073709551616 := by
  rw [withTopByteAddr_arith]
  omega

/-- C1: for every supported pointer shape (`*const T`, `*mut T`,
`*const [T]`, `*mut [T]`), every input pointer, and every tag byte `b`
in `[0,255]`, reading the top byte of the pointer returned by
`with_top_byte` gives back exactly `b`. -/
theorem tbi_top_byte_of_with_top_byte (pc : ConstPtr) (pm : MutPtr)
    (ps : ConstSlicePtr) (pq : MutSlicePtr) (b : Nat) (hb : b < 256) :
    (pc.with_top_byte b).top_byte = b ∧
    (pm.with_top_byte b).top_byte = b ∧
    (ps.with_top_byte b).top_byte = b ∧
    (pq.with_top_byte b).top_byte = b := by
  refine ⟨?_, ?_, ?_, ?_⟩ <;>
    simp only [ConstPtr.with_top_byte, ConstPtr.top_byte,
      MutPtr.with_top_byte, MutPtr.top_byte,
      ConstSlicePtr.with_top_byte, ConstSlicePtr.top_byte,
      MutSlicePtr.with_top_byte, MutSlicePtr.top_byte] <;>
    exact topByteAddr_withTopByteAddr _ b hb

/-- Witness for C1 at concrete pointers and tag byte `0x80`. -/
theorem tbi_top_byte_of_with_top_byte_witness :
    ((ConstPtr.mk 5).with_top_byte 128).top_byte = 128 ∧
    ((MutPtr.mk 6).with_top_byte 128).top_byte = 128 ∧
    ((ConstSlicePtr.mk 7 4).with_top_byte 128).top_byte = 128 ∧
    ((MutSlicePtr.mk 8 4).with_top_byte 128).top_byte = 128 :=
  tbi_top_byte_of_with_top_byte ⟨5⟩ ⟨6⟩ ⟨7, 4⟩ ⟨8, 4⟩ 128 (by decide)

/-- C2: for every pointer and every tag byte, the low 56 bits of the
address of `with_top_byte p b` are identical to the low 56 bits of the
address of `p`, on all four pointer shapes. -/
theorem tbi_with_top_byte_preserves_payload (pc : ConstPtr) (pm : MutPtr)
    (ps : ConstSlicePtr) (pq : MutSlicePtr) (b : Nat) :
    (pc.with_top_byte b).addr % 2 ^ 56 = pc.addr % 2 ^ 56 ∧
    (pm.with_top_byte b).addr % 2 ^ 56 = pm.addr % 2 ^ 56 ∧
    (ps.with_top_byte b).addr % 2 ^ 56 = ps.addr % 2 ^ 56 ∧
    (pq.with_top_byte b).addr % 2 ^ 56 = pq.addr % 2 ^ 56 := by
  have h56 : (2 : Nat) ^ 56 = 72057594037927936 := by norm_num
  refine ⟨?_, ?_, ?_, ?_⟩ <;>
    simp only [ConstPtr.with_top_byte, MutPtr.with_top_byte,
      ConstSlicePtr.with_top_byte, MutSlicePtr.with_top_byte, h56] <;>
    exact withTopByteAddr_payload _ b

/-- C3: `with_top_byte` computes its result address exactly as: mask the
address with `0x00ffffffffffffff`, then OR in `b` shifted left 56 bits;
the returned pointer carries that address.  Arithmetically the result is
`2^56 * b` plus the low 56 bits of the input address. -/
theorem tbi_with_top_byte_formula (pc : ConstPtr) (pm : MutPtr)
    (ps : ConstSlicePtr) (pq : MutSlicePtr) (b : Nat) (hb : b < 256) :
    (pc.with_top_byte b).addr = (pc.addr &&& 0x00ffffffffffffff) ||| (b <<< 56) ∧
    (pm.with_top_byte b).addr = (pm.addr &&& 0x00ffffffffffffff) ||| (b <<< 56) ∧
    (ps.with_top_byte b).addr = (ps.addr &&& 0x00ffffffffffffff) ||| (b <<< 56) ∧
    (pq.with_top_byte b).addr = (pq.addr &&& 0x00ffffffffffffff) ||| (b <<< 56) ∧
    (pc.with_top_byte b).addr = 2 ^ 56 * b + pc.addr % 2 ^ 56 := by
  have hmod : b % 2 ^ 8 = b := Nat.mod_eq_of_lt (by omega)
  have h56 : (2 : Nat) ^ 56 = 72057594037927936 := by norm_num
  refine ⟨?_, ?_, ?_, ?_, ?_⟩
  · simp only [ConstPtr.with_top_byte, withTopByteAddr, addrMask, hmod]
  · simp only [MutPtr.with_top_byte, withTopByteAddr, addrMask, hmod]
  · simp only [ConstSlicePtr.with_top_byte, withTopByteAddr, addrMask, hmod]
  · simp only [MutSlicePtr.with_top_byte, withTopByteAddr, addrMask, hmod]
  · simp only [ConstPtr.with_top_byte, withTopByteAddr_arith, h56]
    omega

/-- Witness for C3 at a concrete pointer and tag byte. -/
theorem tbi_with_top_byte_formula_witness :
    ((ConstPtr.mk 81985529216486895).with_top_byte 171).addr =
      (81985529216486895 &&& 0x00ffffffffffffff) ||| (171 <<< 56) ∧
    ((MutPtr.mk 2).with_top_byte 171).addr =
      (2 &&& 0x00ffffffffffffff) ||| (171 <<< 56) ∧
    ((ConstSlicePtr.mk 3 9).with_top_byte 171).addr =
      (3 &&& 0x00ffffffffffffff) ||| (171 <<< 56) ∧
    ((MutSlicePtr.mk 4 9).with_top_byte 171).addr =
      (4 &&& 0x00ffffffffffffff) ||| (171 <<< 56) ∧
    ((ConstPtr.mk 81985529216486895).with_top_byte 171).addr =
      2 ^ 56 * 171 + 81985529216486895 % 2 ^ 56 :=
  tbi_with_top_byte_formula ⟨81985529216486895⟩ ⟨2⟩ ⟨3, 9⟩ ⟨4, 9⟩ 171 (by decide)

/-- C4: `top_byte` equals the address right-shifted by 56 bits and
truncated to 8 bits, equivalently division by `2^56` followed by
reduction mod 256, on all four shapes; it is a pure total function of
the pointer's address bits. -/
theorem tbi_top_byte_formula (pc : ConstPtr) (pm : MutPtr)
    (ps : ConstSlicePtr) (pq : MutSlicePtr) :
    pc.top_byte = (pc.addr >>> 56) % 2 ^ 8 ∧
    pc.top_byte = pc.addr / 2 ^ 56 % 256 ∧
    pm.top_byte = (pm.addr >>> 56) % 2 ^ 8 ∧
    pm.top_byte = pm.addr / 2 ^ 56 % 256 ∧
    ps.top_byte = (ps.addr >>> 56) % 2 ^ 8 ∧
    ps.top_byte = ps.addr / 2 ^ 56 % 256 ∧
    pq.top_byte = (pq.addr >>> 56) % 2 ^ 8 ∧
    pq.top_byte = pq.addr / 2 ^ 56 % 256 := by
  have h56 : (2 : Nat) ^ 56 = 72057594037927936 := by norm_num
  refine ⟨rfl, ?_, rfl, ?_, rfl, ?_, rfl, ?_⟩ <;>
    simp only [ConstPtr.top_byte, MutPtr.top_byte, ConstSlicePtr.top_byte,
      MutSlicePtr.top_byte, topByteAddr_arith, h56]

/-- C5: the (payload, tag) decomposition of a 64-bit address is a
bijection: reconstructing a pointer from its own parts is the identity,
and two 64-bit addresses with equal payload and equal top byte are
equal. -/
theorem tbi_payload_tag_bijection (p : ConstPtr) (a a' : Nat)
    (hp : p.addr < 2 ^ 64) (ha : a < 2 ^ 64) (ha' : a' < 2 ^ 64)
    (hpay : a % 2 ^ 56 = a' % 2 ^ 56) (htag : topByteAddr a = topByteAddr a') :
    p.with_top_byte p.top_byte = p ∧
    withTopByteAddr a (topByteAddr a) = a ∧ a = a' := by
  have h56 : (2 : Nat) ^ 56 = 72057594037927936 := by norm_num
  have h64 : (2 : Nat) ^ 64 = 18446744073709551616 := by norm_num
  have key : ∀ x : Nat, x < 2 ^ 64 → withTopByteAddr x (topByteAddr x) = x := by
    intro x hx
    rw [withTopByteAddr_arith, topByteAddr_arith]
    omega
  refine ⟨?_, key a ha, ?_⟩
  · obtain ⟨ad⟩ := p
    simp only [ConstPtr.with_top_byte, ConstPtr.top_byte, ConstPtr.mk.injEq]
    exact key ad hp
  · rw [topByteAddr_arith, topByteAddr_arith] at htag
    omega

/-- Witness for C5 at a concrete pointer and concrete addresses. -/
theorem tbi_payload_tag_bijection_witness :
    (ConstPtr.mk 81985529216486895).with_top_byte
      (ConstPtr.mk 81985529216486895).top_byte = ConstPtr.mk 81985529216486895 ∧
    withTopByteAddr 81985529216486895 (topByteAddr 81985529216486895) =
      81985529216486895 ∧ (81985529216486895 : Nat) = 81985529216486895 :=
  tbi_payload_tag_bijection ⟨81985529216486895⟩ 81985529216486895 81985529216486895
    (by decide) (by decide) (by decide) rfl rfl

/-- C6: tagging twice overwrites rather than accumulates: the doubly
tagged pointer keeps the payload of the original and its top byte is the
second tag, independent of the first, on all four shapes. -/
theorem tbi_with_top_byte_overwrites (pc : ConstPtr) (pm : MutPtr)
    (ps : ConstSlicePtr) (pq : MutSlicePtr) (b1 b2 : Nat) (hb2 : b2 < 256) :
    ((pc.with_top_byte b1).with_top_byte b2).addr % 2 ^ 56 = pc.addr % 2 ^ 56 ∧
    ((pc.with_top_byte b1).with_top_byte b2).top_byte = b2 ∧
    ((pm.with_top_byte b1).with_top_byte b2).addr % 2 ^ 56 = pm.addr % 2 ^ 56 ∧
    ((pm.with_top_byte b1).with_top_byte b2).top_byte = b2 ∧
    ((ps.with_top_byte b1).with_top_byte b2).addr % 2 ^ 56 = ps.addr % 2 ^ 56 ∧
    ((ps.with_top_byte b1).with_top_byte b2).top_byte = b2 ∧
    ((pq.with_top_byte b1).with_top_byte b2).addr % 2 ^ 56 = pq.addr % 2 ^ 56 ∧
    ((pq.with_top_byte b1).with_top_byte b2).top_byte = b2 := by
  have h56 : (2 : Nat) ^ 56 = 72057594037927936 := by norm_num
  simp only [ConstPtr.with_top_byte, ConstPtr.top_byte,
    MutPtr.with_top_byte, MutPtr.top_byte,
    ConstSlicePtr.with_top_byte, ConstSlicePtr.top_byte,
    MutSlicePtr.with_top_byte, MutSlicePtr.top_byte, h56]
  refine ⟨?_, ?_, ?_, ?_, ?_, ?_, ?_, ?_⟩ <;>
    first
    | rw [withTopByteAddr_payload, withTopByteAddr_payload]
    | exact topByteAddr_withTopByteAddr _ b2 hb2

/-- Witness for C6 at concrete pointers and tag bytes `0x11`, `0x22`. -/
theorem tbi_with_top_byte_overwrites_witness :
    (((ConstPtr.mk 10).with_top_byte 17).with_top_byte 34).addr % 2 ^ 56 =
      (10 : Nat) % 2 ^ 56 ∧
    (((ConstPtr.mk 10).with_top_byte 17).with_top_byte 34).top_byte = 34 ∧
    (((MutPtr.mk 11).with_top_byte 17).with_top_byte 34).addr % 2 ^ 56 =
      (11 : Nat) % 2 ^ 56 ∧
    (((MutPtr.mk 11).with_top_byte 17).with_top_byte 34).top_byte = 34 ∧
    (((ConstSlicePtr.mk 12 3).with_top_byte 17).with_top_byte 34).addr % 2 ^ 56 =
      (12 : Nat) % 2 ^ 56 ∧
    (((ConstSlicePtr.mk 12 3).with_top_byte 17).with_top_byte 34).top_byte = 34 ∧
    (((MutSlicePtr.mk 13 3).with_top_byte 17).with_top_byte 34).addr % 2 ^ 56 =
      (13 : Nat) % 2 ^ 56 ∧
    (((MutSlicePtr.mk 13 3).with_top_byte 17).with_top_byte 34).top_byte = 34 :=
  tbi_with_top_byte_overwrites ⟨10⟩ ⟨11⟩ ⟨12, 3⟩ ⟨13, 3⟩ 17 34 (by decide)

/-- C7: all four pointer shapes implement `with_top_byte` and `top_byte`
by one and the same address-level transformation: equal input addresses
and tag byte give equal result addresses and equal returned bytes. -/
theorem tbi_shapes_agree (a la lm : Nat) (b : Nat) :
    ((ConstPtr.mk a).with_top_byte b).addr = ((MutPtr.mk a).with_top_byte b).addr ∧
    ((ConstPtr.mk a).with_top_byte b).addr =
      ((ConstSlicePtr.mk a la).with_top_byte b).addr ∧
    ((ConstPtr.mk a).with_top_byte b).addr =
      ((MutSlicePtr.mk a lm).with_top_byte b).addr ∧
    (ConstPtr.mk a).top_byte = (MutPtr.mk a).top_byte ∧
    (ConstPtr.mk a).top_byte = (ConstSlicePtr.mk a la).top_byte ∧
    (ConstPtr.mk a).top_byte = (MutSlicePtr.mk a lm).top_byte :=
  ⟨rfl, rfl, rfl, rfl, rfl, rfl⟩

/-- C8: both operations are total: they are defined for every pointer
value and every tag byte, and the mask, shift and OR never overflow a
64-bit address — the result address always fits in 64 bits and the
returned byte always fits in 8 bits, on all four shapes. -/
theorem tbi_total_bounded (pc : ConstPtr) (pm : MutPtr)
    (ps : ConstSlicePtr) (pq : MutSlicePtr) (b : Nat) :
    (pc.with_top_byte b).addr < 2 ^ 64 ∧ pc.top_byte < 256 ∧
    (pm.with_top_byte b).addr < 2 ^ 64 ∧ pm.top_byte < 256 ∧
    (ps.with_top_byte b).addr < 2 ^ 64 ∧ ps.top_byte < 256 ∧
    (pq.with_top_byte b).addr < 2 ^ 64 ∧ pq.top_byte < 256 := by
  have h64 : (2 : Nat) ^ 64 = 18446744073709551616 := by norm_num
  simp only [ConstPtr.with_top_byte, ConstPtr.top_byte,
    MutPtr.with_top_byte, MutPtr.top_byte,
    ConstSlicePtr.with_top_byte, ConstSlicePtr.top_byte,
    MutSlicePtr.with_top_byte, MutSlicePtr.top_byte, h64]
  refine ⟨?_, ?_, ?_, ?_, ?_, ?_, ?_, ?_⟩ <;>
    first
    | exact withTopByteAddr_lt _ b
    | · rw [topByteAddr_arith]; omega

/-- C9: the boundary tag bytes `0x00` and `0xFF` go through the same
formula as interior values: the payload is preserved, the top byte comes
out as `0x00` and `0xFF` respectively, and the full result address is
exactly payload (for `0x00`) and `255 * 2^56` plus payload (for `0xFF`),
with no sign-extension spill into the low 56 bits. -/
theorem tbi_boundary_bytes (a : Nat) :
    withTopByteAddr a 0 % 2 ^ 56 = a % 2 ^ 56 ∧
    topByteAddr (withTopByteAddr a 0) = 0 ∧
    withTopByteAddr a 255 % 2 ^ 56 = a % 2 ^ 56 ∧
    topByteAddr (withTopByteAddr a 255) = 255 ∧
    withTopByteAddr a 0 = a % 2 ^ 56 ∧
    withTopByteAddr a 255 = 255 * 2 ^ 56 + a % 2 ^ 56 := by
  have h56 : (2 : Nat) ^ 56 = 72057594037927936 := by norm_num
  simp only [h56]
  refine ⟨withTopByteAddr_payload a 0,
    topByteAddr_withTopByteAddr a 0 (by omega),
    withTopByteAddr_payload a 255,
    topByteAddr_withTopByteAddr a 255 (by omega), ?_, ?_⟩
  · rw [withTopByteAddr_arith]; omega
  · rw [withTopByteAddr_arith]

/-- C10: on the fat (slice) pointer shapes, `with_top_byte` changes only
the address component; the length metadata of the result equals the
length metadata of the input, for every slice pointer and tag byte. -/
theorem tbi_slice_len_preserved (ps : ConstSlicePtr) (pq : MutSlicePtr) (b : Nat) :
    (ps.with_top_byte b).len = ps.len ∧ (pq.with_top_byte b).len = pq.len :=
  ⟨rfl, rfl⟩

end TBI
